import Mathlib

/-!
Verification development for the Gleni movie-discovery chatbot repository.

The definitions below are a shallow embedding of the TypeScript source:

* `src/lib/ai/chat.ts` (constraint extractors, fast-path recommendation
  merger, tool-calling loop tail),
* `src/lib/ai/tools.ts` (`executeTool`),
* `src/lib/persistence.ts` (`uniqueById`, `saveWatchedMovie`,
  `getRecommendationsFromHistory`),
* `src/app/api/history/route.ts` and `src/app/api/chat/route.ts` +
  `src/app/page.tsx` (assistant-payload handling on the replay and live
  paths).

External collaborators (OpenAI, TMDB, Supabase, Prisma) are modelled as
environment records of `Except`-valued functions: a thrown JS exception is
an `Except.error`, a resolved promise is `Except.ok`.  JavaScript regular
expressions used by the extractors are hand-compiled to deterministic
matchers that reproduce the engine's leftmost-match and ordered-alternation
backtracking behaviour for the concrete patterns appearing in the source.
Character classes follow the ECMAScript ASCII behaviour (`\w`, `\s`, `.`);
`toLowerCase` is modelled characterwise on ASCII.
-/

/-! ## Character and string scanning utilities -/

/-- ECMAScript `\w` word character: `[A-Za-z0-9_]`. -/
def isWordChar (c : Char) : Bool :=
  (('a' ≤ c && c ≤ 'z') || ('A' ≤ c && c ≤ 'Z') || ('0' ≤ c && c ≤ '9') || c = '_')

/-- ECMAScript `\s` whitespace (ASCII part). -/
def isSpaceChar (c : Char) : Bool :=
  (c = ' ' || c = '\t' || c = '\n' || c = '\r' || c = Char.ofNat 11 || c = Char.ofNat 12)

/-- ASCII lowering of one character, as `String.prototype.toLowerCase` acts on ASCII. -/
def lowerChar (c : Char) : Char :=
  if 'A' ≤ c && c ≤ 'Z' then Char.ofNat (c.toNat + 32) else c

/-- The character list of `message.toLowerCase()`. -/
def lowerList (s : String) : List Char :=
  s.data.map lowerChar

/-- Does `pat` occur literally at the head of `hay` (case-sensitive)? -/
def listStartsWith : List Char → List Char → Bool
  | _, [] => true
  | [], _ :: _ => false
  | h :: hs, p :: ps => h = p && listStartsWith hs ps

/-- Does `pat` occur literally at the head of `hay`, comparing ASCII case-insensitively? -/
def listStartsWithCI : List Char → List Char → Bool
  | _, [] => true
  | [], _ :: _ => false
  | h :: hs, p :: ps => lowerChar h = lowerChar p && listStartsWithCI hs ps

/-- `String.prototype.includes`: does `pat` occur as a contiguous substring of `hay`? -/
def substrIncludes (hay pat : List Char) : Bool :=
  match hay with
  | [] => pat.isEmpty
  | _ :: t => listStartsWith hay pat || substrIncludes t pat

/-- Drop a literal pattern from the head of a list, returning the remainder. -/
def dropLit : List Char → List Char → Option (List Char)
  | [], t => some t
  | _ :: _, [] => none
  | p :: ps, c :: cs => if p = c then dropLit ps cs else none

/-- Whole-word match of `pat` at the head of `s`: the pattern matches literally and the
`\b` after it holds (`pat` ends in a word character in all source cue lists). -/
def wordMatchAt (pat : List Char) (s : List Char) : Bool :=
  match dropLit pat s with
  | some rest =>
    (match rest.head? with
     | some c => !isWordChar c
     | none => true)
  | none => false

/-- Scan for `\bpat\b` with the word-character status of the previous character tracked. -/
def containsWordAux (pat : List Char) (prevIsWord : Bool) : List Char → Bool
  | [] => false
  | c :: t =>
    ((!prevIsWord) && wordMatchAt pat (c :: t)) || containsWordAux pat (isWordChar c) t

/-- JS `new RegExp("\\b" + cue + "\\b").test(text)` for a cue that starts and ends with a
word character (true of every cue and alias in the source). -/
def containsWord (pat : List Char) (hay : List Char) : Bool :=
  match pat with
  | [] => false
  | _ :: _ => containsWordAux pat false hay

/-- `String.prototype.trim` (ASCII whitespace). -/
def trimList (cs : List Char) : List Char :=
  ((cs.dropWhile isSpaceChar).reverse.dropWhile isSpaceChar).reverse

/-- Order-preserving deduplication keeping first occurrences, with an accumulator of
values seen so far; models `Array.from(new Set(xs))`. -/
def dedupFirstAux (seen : List String) : List String → List String
  | [] => []
  | x :: xs =>
    if x ∈ seen then dedupFirstAux seen xs
    else x :: dedupFirstAux (x :: seen) xs

/-- `Array.from(new Set(xs))` for string arrays: keeps the first occurrence of each value. -/
def dedupFirst (l : List String) : List String :=
  dedupFirstAux [] l

/-- Character at index `i`, if any. -/
def charAt (cs : List Char) (i : Nat) : Option Char :=
  (cs.drop i).head?

/-- Substring `[i, i+n)` of a character list. -/
def subList (cs : List Char) (i n : Nat) : List Char :=
  (cs.drop i).take n

/-- Length of the maximal run of characters satisfying `p` at the head of a list. -/
def countRun (p : Char → Bool) : List Char → Nat
  | [] => 0
  | c :: t => if p c then countRun p t + 1 else 0

/-- Length of the maximal run of characters satisfying `p` starting at index `i`. -/
def classRunAt (p : Char → Bool) (cs : List Char) (i : Nat) : Nat :=
  countRun p (cs.drop i)

/-- Length of the maximal `\s*` run starting at index `i`. -/
def wsRunAt (cs : List Char) (i : Nat) : Nat :=
  classRunAt isSpaceChar cs i

/-- Case-insensitive literal match of `pat` at index `i`. -/
def litAtCI (cs : List Char) (pat : List Char) (i : Nat) : Bool :=
  listStartsWithCI (cs.drop i) pat

/-- Is the character at index `i` a word character (out of range counts as non-word)? -/
def isWordAt (cs : List Char) (i : Nat) : Bool :=
  match charAt cs i with
  | some c => isWordChar c
  | none => false

/-- ECMAScript `\b` at position `i`: word-character status changes across the position. -/
def boundaryBeforeAt (cs : List Char) (i : Nat) : Bool :=
  (if i = 0 then false else isWordAt cs (i - 1)) != isWordAt cs i

/-- Try `f` at positions `i, i+1, …` (bounded by `fuel`) and return the first success:
the leftmost-match rule of a JS regex scan. -/
def scanFirst {β : Type} (f : Nat → Option β) : Nat → Nat → Option β
  | 0, _ => none
  | fuel + 1, i =>
    match f i with
    | some b => some b
    | none => scanFirst f fuel (i + 1)

/-! ## Constraint Extractor (src/lib/ai/chat.ts lines 14-187)

`GENRE_ALIASES`, the cue lists and the extraction functions are transcribed
from the source.  Each JS regex is compiled to a dedicated matcher with the
engine's greedy/lazy backtracking order spelled out. -/

def GENRE_ALIASES : List (String × List String) :=
  [("Action", ["action"]),
   ("Adventure", ["adventure"]),
   ("Animation", ["animation", "animated"]),
   ("Comedy", ["comedy", "comedies", "funny"]),
   ("Crime", ["crime", "criminal"]),
   ("Documentary", ["documentary", "documentaries", "doc"]),
   ("Drama", ["drama", "dramatic"]),
   ("Family", ["family", "kids", "kid", "children"]),
   ("Fantasy", ["fantasy", "fantastical"]),
   ("History", ["history", "historical"]),
   ("Horror", ["horror", "scary", "frightening"]),
   ("Music", ["music", "musical"]),
   ("Mystery", ["mystery"]),
   ("Romance", ["romance", "romantic", "love story"]),
   ("Science Fiction", ["science fiction", "sci fi", "sci-fi", "scifi"]),
   ("TV Movie", ["tv movie", "television movie", "tv-movie"]),
   ("Thriller", ["thriller", "thrillers"]),
   ("War", ["war", "warfare"]),
   ("Western", ["western", "west"])]

def AVOID_CUES : List String := ["avoid", "no", "not", "without", "exclude", "skip"]

def RECENT_CUES : List String := ["recent", "newer", "latest", "modern", "not so old"]

def RECOMMENDATION_CUES : List String :=
  ["recommend", "recommendation", "movies like", "similar to", "suggest"]

/-- `AVOID_CUES.some(cue => new RegExp("\\b" + cue + "\\b", "i").test(lower))`. -/
def hasAvoidCue (lower : List Char) : Bool :=
  AVOID_CUES.any (fun cue => containsWord cue.data lower)

/-- `extractExcludedGenres` (chat.ts lines 56-75): gated on a negation cue, then
whole-word alias scan per genre, then `Array.from(new Set(...))`. -/
def extractExcludedGenres (message : String) : List String :=
  let lower := lowerList message
  if !hasAvoidCue lower then []
  else
    dedupFirst
      ((GENRE_ALIASES.filter
          (fun ga => ga.2.any (fun al => containsWord al.data lower))).map
        (fun ga => ga.1))

/-- Four digits `(19|20)\d{2}` followed by `\b`, starting at index `i`; returns the year. -/
def yearAt (cs : List Char) (i : Nat) : Option Nat :=
  match charAt cs i, charAt cs (i + 1), charAt cs (i + 2), charAt cs (i + 3) with
  | some a, some b, some c, some d =>
    if ((a = '1' && b = '9') || (a = '2' && b = '0')) && c.isDigit && d.isDigit
        && !isWordAt cs (i + 4) then
      some ((a.toNat - 48) * 1000 + (b.toNat - 48) * 100 + (c.toNat - 48) * 10 + (d.toNat - 48))
    else none
  | _, _, _, _ => none

/-- `\s+(19|20)\d{2}\b` at index `j` (whitespace run must be non-empty). -/
def kwYearTail (cs : List Char) (j : Nat) : Option Nat :=
  let w := wsRunAt cs j
  if w ≥ 1 then yearAt cs (j + w) else none

/-- One attempt of `/\b(after|since)\s+(19|20)\d{2}\b/` at index `i`. -/
def afterSinceAt (lower : List Char) (i : Nat) : Option Nat :=
  if boundaryBeforeAt lower i then
    (if litAtCI lower ("after".data) i then kwYearTail lower (i + 5) else none) <|>
    (if litAtCI lower ("since".data) i then kwYearTail lower (i + 5) else none)
  else none

/-- `lower.match(/\b(after|since)\s+(19|20)\d{2}\b/)`, returning the year of the
leftmost match (`parseInt(match[0].slice(-4))`). -/
def matchAfterSince (lower : List Char) : Option Nat :=
  scanFirst (afterSinceAt lower) (lower.length + 1) 0

/-- `\s*(19|20)\d{2}\b` at index `j` (whitespace run may be empty). -/
def wsStarYear (cs : List Char) (j : Nat) : Option Nat :=
  yearAt cs (j + wsRunAt cs j)

/-- One attempt of `/\bat least (?:from|since)?\s*(19|20)\d{2}\b/` at index `i`, with the
optional group's ordered alternation (`from`, then `since`, then empty). -/
def atLeastAt (lower : List Char) (i : Nat) : Option Nat :=
  if boundaryBeforeAt lower i && litAtCI lower ("at least ".data) i then
    let j := i + 9
    (if litAtCI lower ("from".data) j then wsStarYear lower (j + 4) else none) <|>
    (if litAtCI lower ("since".data) j then wsStarYear lower (j + 5) else none) <|>
    wsStarYear lower j
  else none

def matchAtLeast (lower : List Char) : Option Nat :=
  scanFirst (atLeastAt lower) (lower.length + 1) 0

/-- One attempt of `/\b(before|older than)\s+(19|20)\d{2}\b/` at index `i`. -/
def beforeAt (lower : List Char) (i : Nat) : Option Nat :=
  if boundaryBeforeAt lower i then
    (if litAtCI lower ("before".data) i then kwYearTail lower (i + 6) else none) <|>
    (if litAtCI lower ("older than".data) i then kwYearTail lower (i + 10) else none)
  else none

def matchBefore (lower : List Char) : Option Nat :=
  scanFirst (beforeAt lower) (lower.length + 1) 0

/-- `\s+years?\b` at index `q`, with the greedy optional `s`. -/
def lastYearsTail (lower : List Char) (q : Nat) : Bool :=
  let w := wsRunAt lower q
  w ≥ 1 && litAtCI lower ("year".data) (q + w) &&
    (match charAt lower (q + w + 4) with
     | some c => if c = 's' then !isWordAt lower (q + w + 5) else !isWordChar c
     | none => true)

/-- One attempt of `/\blast\s+(\d{1,2})\s+years?\b/` at index `i`: the greedy `\d{1,2}`
tries two digits first, then one. -/
def lastYearsAt (lower : List Char) (i : Nat) : Option Nat :=
  if boundaryBeforeAt lower i && litAtCI lower ("last".data) i then
    let j := i + 4
    let w := wsRunAt lower j
    if w ≥ 1 then
      let p := j + w
      match charAt lower p, charAt lower (p + 1) with
      | some d1, some d2 =>
        if d1.isDigit && d2.isDigit && lastYearsTail lower (p + 2) then
          some ((d1.toNat - 48) * 10 + (d2.toNat - 48))
        else if d1.isDigit && lastYearsTail lower (p + 1) then
          some (d1.toNat - 48)
        else none
      | some d1, none =>
        if d1.isDigit && lastYearsTail lower (p + 1) then some (d1.toNat - 48) else none
      | _, _ => none
    else none
  else none

def matchLastYears (lower : List Char) : Option Nat :=
  scanFirst (lastYearsAt lower) (lower.length + 1) 0

/-- `RECENT_CUES.some(cue => new RegExp("\\b" + cue + "\\b", "i").test(lower))`. -/
def hasRecentCue (lower : List Char) : Bool :=
  RECENT_CUES.any (fun cue => containsWord cue.data lower)

/-- The character class `[^\n.,;!?]` used by the title-capture regexes (negated). -/
def titleStopChar (c : Char) : Bool :=
  (c = '\n' || c = '.' || c = ',' || c = ';' || c = '!' || c = '?')

/-- `\s+([^X]+)` at index `j` with JS backtracking: the greedy `\s+` starts maximal and
shrinks until the capture can start with a non-excluded character; the capture is then
the maximal run of non-excluded characters.  The countdown argument is the whitespace
width currently being tried. -/
def wsThenCapLoop (excl : Char → Bool) (cs : List Char) (j : Nat) : Nat → Option (List Char)
  | 0 => none
  | w + 1 =>
    match charAt cs (j + (w + 1)) with
    | some c =>
      if excl c then wsThenCapLoop excl cs j w
      else some (subList cs (j + (w + 1)) (classRunAt (fun d => !excl d) cs (j + (w + 1))))
    | none => wsThenCapLoop excl cs j w

def wsThenCaptureAt (excl : Char → Bool) (cs : List Char) (j : Nat) : Option (List Char) :=
  wsThenCapLoop excl cs j (wsRunAt cs j)

/-- One attempt of `/not as old as\s+([^\n.,;!?]+)/i` at index `i` (no `\b` in the source). -/
def notAsOldAsAt (cs : List Char) (i : Nat) : Option (List Char) :=
  if litAtCI cs ("not as old as".data) i then wsThenCaptureAt titleStopChar cs (i + 13)
  else none

/-- `message.match(/not as old as\s+([^\n.,;!?]+)/i)`, capture of the leftmost match. -/
def notAsOldAsCapture (cs : List Char) : Option (List Char) :=
  scanFirst (notAsOldAsAt cs) (cs.length + 1) 0

/-- First index at which one of `but|and|without|avoid` matches case-insensitively. -/
def splitCueAt (cs : List Char) (i : Nat) : Option Nat :=
  if litAtCI cs ("but".data) i || litAtCI cs ("and".data) i ||
     litAtCI cs ("without".data) i || litAtCI cs ("avoid".data) i then some i
  else none

/-- `raw.split(/but|and|without|avoid/i)[0]`: the prefix before the leftmost cue. -/
def splitCue (cs : List Char) : List Char :=
  match scanFirst (splitCueAt cs) (cs.length + 1) 0 with
  | some i => cs.take i
  | none => cs

/-- The quote characters of the source pattern `["“”']`. -/
def isQuoteChar (c : Char) : Bool :=
  (c = '"' || c = '“' || c = '”' || c = '\'')

/-- `[...message.matchAll(/["“”']([^"“”']+)["“”']/g)]`: list of `(match.index, capture)`
pairs, scanning left to right without overlap. -/
def quotedScan (cs : List Char) : Nat → Nat → List (Nat × List Char)
  | 0, _ => []
  | fuel + 1, i =>
    match charAt cs i with
    | none => []
    | some c =>
      if isQuoteChar c then
        let run := classRunAt (fun d => !isQuoteChar d) cs (i + 1)
        if run ≥ 1 &&
            (match charAt cs (i + 1 + run) with
             | some d => isQuoteChar d
             | none => false) then
          (i, subList cs (i + 1) run) :: quotedScan cs fuel (i + 1 + run + 1)
        else quotedScan cs fuel (i + 1)
      else quotedScan cs fuel (i + 1)

/-- All quoted captures of a message. -/
def quotedAll (cs : List Char) : List (Nat × List Char) :=
  quotedScan cs (cs.length + 1) 0

/-- The ECMAScript `.` without the `s` flag: any character but a line terminator. -/
def dotChar (c : Char) : Bool :=
  !(c = '\n' || c = '\r')

/-- Does `saga`, `series` or `franchise` match case-insensitively at index `i`? -/
def franchiseKeywordAt (cs : List Char) (i : Nat) : Bool :=
  litAtCI cs ("saga".data) i || litAtCI cs ("series".data) i ||
    litAtCI cs ("franchise".data) i

/-- The lazy `(.+?)\s+(saga|series|franchise)` from index `start`: capture lengths are
tried in increasing order (`n` is the current candidate length); the trailing `\s+` is
deterministic because the keywords start with non-whitespace.  Stops as soon as the
candidate capture would leave the string or include a line terminator. -/
def franchiseCapLoop (cs : List Char) (start : Nat) : Nat → Nat → Option Nat
  | 0, _ => none
  | fuel + 1, n =>
    let cap := subList cs start n
    if cap.length = n && cap.all dotChar then
      let w := wsRunAt cs (start + n)
      if w ≥ 1 && franchiseKeywordAt cs (start + n + w) then some n
      else franchiseCapLoop cs start fuel (n + 1)
    else none

/-- The leading `\s+` of the franchise tail with JS backtracking: maximal width first,
shrinking on failure.  The countdown argument is the width currently tried. -/
def franchiseWsLoop (cs : List Char) (j : Nat) : Nat → Option (List Char)
  | 0 => none
  | w + 1 =>
    match franchiseCapLoop cs (j + (w + 1)) (cs.length + 1) 1 with
    | some n => some (subList cs (j + (w + 1)) n)
    | none => franchiseWsLoop cs j w

/-- Ordered-alternation helper for the optional literal groups `(?: any| the)?` etc.:
try each alternative in order (continuing with `k`), then the empty alternative. -/
def optLitChoice (cs : List Char) : List (List Char) → Nat → (Nat → Option (List Char)) →
    Option (List Char)
  | [], i, k => k i
  | a :: rest, i, k =>
    (if litAtCI cs a i then k (i + a.length) else none) <|> optLitChoice cs rest i k

/-- One attempt at index `i` of
`/avoid(?: any| the)?(?: movies)?(?: from)?(?: the)?\s+(.+?)\s+(saga|series|franchise)/i`. -/
def franchiseAt (cs : List Char) (i : Nat) : Option (List Char) :=
  if litAtCI cs ("avoid".data) i then
    optLitChoice cs [" any".data, " the".data] (i + 5) (fun j1 =>
      optLitChoice cs [" movies".data] j1 (fun j2 =>
        optLitChoice cs [" from".data] j2 (fun j3 =>
          optLitChoice cs [" the".data] j3 (fun j4 =>
            franchiseWsLoop cs j4 (wsRunAt cs j4)))))
  else none

/-- `message.match(/avoid(?: any| the)?(?: movies)?(?: from)?(?: the)?\s+(.+?)\s+(saga|series|franchise)/i)`,
group 1 of the leftmost match. -/
def franchiseMatch (cs : List Char) : Option (List Char) :=
  scanFirst (franchiseAt cs) (cs.length + 1) 0

/-- One attempt of `/(?:like|similar to)\s+([^\n.,;!?]+)/i` at index `i`. -/
def likeSeedAt (cs : List Char) (i : Nat) : Option (List Char) :=
  (if litAtCI cs ("like".data) i then wsThenCaptureAt titleStopChar cs (i + 4) else none) <|>
  (if litAtCI cs ("similar to".data) i then wsThenCaptureAt titleStopChar cs (i + 10) else none)

def likeSeedCapture (cs : List Char) : Option (List Char) :=
  scanFirst (likeSeedAt cs) (cs.length + 1) 0

/-- `isRecommendationIntent` (chat.ts lines 121-124): substring containment of the cues. -/
def isRecommendationIntent (message : String) : Bool :=
  let lower := lowerList message
  RECOMMENDATION_CUES.any (fun cue => substrIncludes lower cue.data)

/-- `extractSeedTitle` (chat.ts lines 126-138): first quoted substring, otherwise the
`like`/`similar to` capture truncated at the first trailing conjunction. -/
def extractSeedTitle (message : String) : Option String :=
  match (quotedAll message.data).head? with
  | some m => some (String.mk (trimList m.2))
  | none =>
    match likeSeedCapture message.data with
    | some raw =>
      let cleaned := trimList (splitCue raw)
      if cleaned.isEmpty then none else some (String.mk cleaned)
    | none => none

/-- `extractExcludedTitles` (chat.ts lines 140-170): gated on a negation cue; quoted
substrings whose prefix contains a cue as a substring, the franchise capture, and the
hardcoded `Star Trek` special case, deduplicated via `Array.from(new Set(...))`. -/
def extractExcludedTitles (message : String) : List String :=
  let cs := message.data
  let lower := lowerList message
  let hasCue := hasAvoidCue lower
  if !hasCue then []
  else
    let quotedPart :=
      (quotedAll cs).filterMap (fun m =>
        let before := lower.take m.1
        if AVOID_CUES.any (fun cue => substrIncludes before cue.data) then
          some (String.mk (trimList m.2))
        else none)
    let franchisePart :=
      match franchiseMatch cs with
      | some cap => [String.mk (trimList cap)]
      | none => []
    let trekPart :=
      if substrIncludes lower ("star trek".data) && hasCue then ["Star Trek"] else []
    dedupFirst (quotedPart ++ franchisePart ++ trekPart)

/-- `extractYearConstraints` result record (chat.ts lines 77-81). -/
structure YearConstraints where
  minYear : Option Int := none
  maxYear : Option Int := none
  notAsOldAsTitle : Option String := none
deriving DecidableEq

/-- `extractYearConstraints` (chat.ts lines 77-119).  `currentYear` stands for
`new Date().getFullYear()`.  The patterns are tried in the source's order; the first
match wins. -/
def extractYearConstraints (message : String) (currentYear : Int) : YearConstraints :=
  let lower := lowerList message
  match matchAfterSince lower with
  | some y => { minYear := some (Int.ofNat y) }
  | none =>
    match matchAtLeast lower with
    | some y => { minYear := some (Int.ofNat y) }
    | none =>
      match matchBefore lower with
      | some y => { maxYear := some (Int.ofNat y) }
      | none =>
        match matchLastYears lower with
        | some n => { minYear := some (currentYear - Int.ofNat n) }
        | none =>
          if hasRecentCue lower then { minYear := some (currentYear - 15) }
          else
            match notAsOldAsCapture message.data with
            | some raw =>
              let cleaned := trimList (splitCue raw)
              if cleaned.isEmpty then {} else { notAsOldAsTitle := some (String.mk cleaned) }
            | none => {}

/-- Decidable equality for `Except` results, used to evaluate closed instances. -/
instance {ε α : Type} [DecidableEq ε] [DecidableEq α] : DecidableEq (Except ε α) := fun a b =>
  match a, b with
  | .error x, .error y =>
    if h : x = y then .isTrue (h ▸ rfl) else .isFalse (fun hh => h (Except.error.inj hh))
  | .ok x, .ok y =>
    if h : x = y then .isTrue (h ▸ rfl) else .isFalse (fun hh => h (Except.ok.inj hh))
  | .error _, .ok _ => .isFalse (fun hh => Except.noConfusion hh)
  | .ok _, .error _ => .isFalse (fun hh => Except.noConfusion hh)

/-! ## Domain data (src/lib/tmdb.ts types, src/lib/persistence.ts shapes)

`MovieItem` unifies `MovieSummary` and `SemanticMovieRecommendation` (the
latter only adds the optional `matchConfidence` tag, absent on TMDB client
results); `id` is an integer for every movie producer in the source.
`vote_average`/`runtime` of `MovieDetails` are unused by the verified code
paths and omitted (floating point).  Timestamps are abstract integers. -/

inductive Confidence where
  | high
  | medium
  | low
deriving DecidableEq

structure MovieItem where
  id : Int
  title : String
  releaseYear : Option Int := none
  overview : Option String := none
  posterUrl : Option String := none
  genres : List String := []
  matchConfidence : Option Confidence := none
deriving DecidableEq

structure MovieDetails where
  id : Int
  title : String
  releaseYear : Option Int := none
  overview : Option String := none
  posterUrl : Option String := none
  genres : List String := []
  topCast : List String := []
deriving DecidableEq

structure TrackRec where
  id : String
  name : String
  artists : List String := []
  album : String := ""
  releaseYear : Option Int := none
  previewUrl : Option String := none
  popularity : Option Int := none
deriving DecidableEq

structure WatchedHistoryRow where
  id : String
  movieId : Int
  movieTitle : String
  addedAt : Int
deriving DecidableEq

structure ListenedHistoryRow where
  id : String
  trackId : String
  trackName : String
  artist : String
  addedAt : Int
deriving DecidableEq

structure UserHistory where
  watchedMovies : List WatchedHistoryRow
  listenedSongs : List ListenedHistoryRow
deriving DecidableEq

structure HistoryRecs where
  movieRecommendations : List MovieItem
  songRecommendations : List TrackRec
deriving DecidableEq

structure FeedbackRow where
  itemType : String
  itemId : String
  rating : Int
deriving DecidableEq

/-- A JS `id` value of type `string | number`. -/
inductive IdVal where
  | num (n : Int)
  | str (s : String)
deriving DecidableEq

/-- The structural constraint `T extends { id: string | number }` of `uniqueById`. -/
class HasId (α : Type) where
  getId : α → IdVal

instance : HasId MovieItem := ⟨fun m => .num m.id⟩

instance : HasId TrackRec := ⟨fun t => .str t.id⟩

/-! ## Tool Registry and Executor (src/lib/ai/tools.ts lines 187-278)

Arguments arrive from the LLM as a JSON object; only the string/number
distinction matters to the Zod schemas, so an argument value is modelled by
`JItem`.  Collaborators are an environment of `Except`-valued functions.
A Zod parse failure throws inside the `try`, producing the catch-all error
result; the text of `ZodError.message` is modelled opaquely. -/

inductive JItem where
  | str (s : String)
  | num (n : Int)
  | other
deriving DecidableEq

/-- The `args: Record<string, unknown>` map passed to `executeTool`. -/
def ToolArgs := List (String × JItem)

/-- Zod `z.object({ key: z.string() })` projection: succeeds only on a string value. -/
def argString (args : ToolArgs) (key : String) : Option String :=
  match List.lookup key args with
  | some (.str s) => some s
  | _ => none

/-- Zod `z.object({ key: z.number() })` projection: succeeds only on a number value. -/
def argNum (args : ToolArgs) (key : String) : Option Int :=
  match List.lookup key args with
  | some (.num n) => some n
  | _ => none

/-- Stand-in for `ZodError.message` produced when schema validation fails. -/
def zodErrorMessage : String := "Invalid tool arguments"

/-- The external collaborators dispatched by `executeTool`, with the argument shapes
used at the call sites in tools.ts (no filter options are passed there). -/
structure ToolEnv where
  searchMovies : String → Except String (List MovieItem)
  getMovieDetails : Int → Except String MovieDetails
  getMovieRecommendations : Int → Except String (List MovieItem)
  getSemanticMovieRecommendations : MovieDetails → Except String (List MovieItem)
  saveWatchedMovie : String → Int → String → Except String Unit
  getUserHistory : String → Except String UserHistory
  getRecommendationsFromHistory : String → Except String HistoryRecs
  getUserFeedback : String → Except String (List FeedbackRow)

/-- The `unknown` result value of a successful tool call, by dispatched shape. -/
inductive ToolOutput where
  | summaries (items : List MovieItem)
  | details (d : MovieDetails)
  | semantic (items : List MovieItem)
  | savedOk
  | history (h : UserHistory)
  | recs (r : HistoryRecs)
  | feedback (rows : List FeedbackRow)
deriving DecidableEq

/-- The `{ result: unknown; error?: string }` returned by `executeTool`; the failure
shape `{ result: null, error }` is `result = none`. -/
structure ExecResult where
  result : Option ToolOutput
  error : Option String
deriving DecidableEq

/-- The tool names of the registry in tools.ts. -/
def knownToolNames : List String :=
  ["search_movies", "get_movie_details", "get_movie_recommendations",
   "get_semantic_movie_recommendations", "save_watched_movie", "get_user_history",
   "get_recommendations_from_history", "get_user_feedback"]

/-- `executeTool` (tools.ts lines 187-278).  The whole body is wrapped in `try/catch`:
a schema-validation throw or a collaborator throw becomes `{result: null, error}`.
For `get_semantic_movie_recommendations` the inner `try` falls back to catalog
recommendations on an empty or thrown semantic result; a throw of the fallback itself
escapes to the outer catch. -/
def executeTool (env : ToolEnv) (toolName : String) (args : ToolArgs) (userId : String) :
    ExecResult :=
  if toolName = "search_movies" then
    match argString args "query" with
    | none => ⟨none, some zodErrorMessage⟩
    | some query =>
      match env.searchMovies query with
      | .ok results => ⟨some (.summaries results), none⟩
      | .error e => ⟨none, some e⟩
  else if toolName = "get_movie_details" then
    match argNum args "movie_id" with
    | none => ⟨none, some zodErrorMessage⟩
    | some movie_id =>
      match env.getMovieDetails movie_id with
      | .ok result => ⟨some (.details result), none⟩
      | .error e => ⟨none, some e⟩
  else if toolName = "get_movie_recommendations" then
    match argNum args "movie_id" with
    | none => ⟨none, some zodErrorMessage⟩
    | some movie_id =>
      match env.getMovieRecommendations movie_id with
      | .ok results => ⟨some (.summaries results), none⟩
      | .error e => ⟨none, some e⟩
  else if toolName = "get_semantic_movie_recommendations" then
    match argNum args "movie_id" with
    | none => ⟨none, some zodErrorMessage⟩
    | some movie_id =>
      match env.getMovieDetails movie_id with
      | .error e => ⟨none, some e⟩
      | .ok seed =>
        match env.getSemanticMovieRecommendations seed with
        | .ok results =>
          if results.isEmpty then
            match env.getMovieRecommendations movie_id with
            | .ok fallback => ⟨some (.summaries fallback), none⟩
            | .error e => ⟨none, some e⟩
          else ⟨some (.semantic results), none⟩
        | .error _ =>
          match env.getMovieRecommendations movie_id with
          | .ok fallback => ⟨some (.summaries fallback), none⟩
          | .error e => ⟨none, some e⟩
  else if toolName = "save_watched_movie" then
    match argNum args "movie_id", argString args "movie_title", argString args "user_id" with
    | some movie_id, some movie_title, some user_id =>
      match env.saveWatchedMovie user_id movie_id movie_title with
      | .ok _ => ⟨some .savedOk, none⟩
      | .error e => ⟨none, some e⟩
    | _, _, _ => ⟨none, some zodErrorMessage⟩
  else if toolName = "get_user_history" then
    match argString args "user_id" with
    | none => ⟨none, some zodErrorMessage⟩
    | some user_id =>
      match env.getUserHistory user_id with
      | .ok result => ⟨some (.history result), none⟩
      | .error e => ⟨none, some e⟩
  else if toolName = "get_recommendations_from_history" then
    match argString args "user_id" with
    | none => ⟨none, some zodErrorMessage⟩
    | some user_id =>
      match env.getRecommendationsFromHistory user_id with
      | .ok result => ⟨some (.recs result), none⟩
      | .error e => ⟨none, some e⟩
  else if toolName = "get_user_feedback" then
    match argString args "user_id" with
    | none => ⟨none, some zodErrorMessage⟩
    | some user_id =>
      match env.getUserFeedback user_id with
      | .ok result => ⟨some (.feedback result), none⟩
      | .error e => ⟨none, some e⟩
  else ⟨none, some ("Unknown tool: " ++ toolName)⟩

/-! ## Fast-path Recommendation Merger (src/lib/ai/chat.ts lines 172-294) -/

/-- The `{excludeGenres, minYear, maxYear}` option object passed to the
recommendation collaborators by `buildRecommendationResponse`. -/
structure RecFilters where
  excludeGenres : List String
  minYear : Option Int
  maxYear : Option Int
deriving DecidableEq

/-- The object serialized by `JSON.stringify` at the end of
`buildRecommendationResponse`; the serialization itself is left abstract, the
payload carries the same data. -/
structure ResponsePayload where
  message : String
  reasoning : String
  movies : List MovieItem
deriving DecidableEq

/-- One entry of the OpenAI message history as used by the merger: a role and a
`string | null` content (non-string contents read as `""` via `contentToString`). -/
structure ChatMsg where
  role : String
  content : Option String
deriving DecidableEq

/-- `contentToString` (chat.ts lines 172-176). -/
def contentToString (content : Option String) : String :=
  match content with
  | some s => s
  | none => ""

/-- JS truthiness of a `string | null` value. -/
def isTruthyStr (o : Option String) : Bool :=
  match o with
  | some s => s ≠ ""
  | none => false

/-- `filterExcludedTitles` (chat.ts lines 178-187). -/
def filterExcludedTitles (items : List MovieItem) (excludedTitles : List String) :
    List MovieItem :=
  if excludedTitles.isEmpty then items
  else
    items.filter (fun item =>
      excludedTitles.all (fun ex => !substrIncludes (lowerList item.title) (lowerList ex)))

/-- The collaborators awaited by `buildRecommendationResponse`, with the option
objects passed at its call sites. -/
structure ChatEnv where
  searchMovies : String → Except String (List MovieItem)
  getMovieDetails : Int → Except String MovieDetails
  getSemanticMovieRecommendations : MovieDetails → RecFilters → Except String (List MovieItem)
  getMovieRecommendations : Int → RecFilters → Except String (List MovieItem)
  getRecommendationsFromHistory : String → RecFilters → Except String HistoryRecs

/-- `buildRecommendationResponse` (chat.ts lines 189-294).  `currentYear` feeds
`extractYearConstraints`.  There is no `try/catch` in the source body: a rejected
collaborator promise propagates, which the `Except` bind structure mirrors; `.ok none`
is the source's `return null`. -/
def buildRecommendationResponse (env : ChatEnv) (currentYear : Int) (userMessage : String)
    (history : List ChatMsg) (userId : String) : Except String (Option ResponsePayload) :=
  let excludedGenres := extractExcludedGenres userMessage
  let excludedTitles := extractExcludedTitles userMessage
  let yearConstraints := extractYearConstraints userMessage currentYear
  let seedFromMessage := extractSeedTitle userMessage
  let lastUserMessage :=
    history.reverse.find? (fun m => m.role = "user" && isTruthyStr m.content)
  let seedFromHistory :=
    if isTruthyStr seedFromMessage then none
    else
      match lastUserMessage with
      | some m => extractSeedTitle (contentToString m.content)
      | none => none
  let seedTitle :=
    match seedFromMessage with
    | some s => some s
    | none => seedFromHistory
  let yearStep : Except String (Option Int × Option Int) :=
    match yearConstraints.notAsOldAsTitle with
    | some t =>
      match env.searchMovies t with
      | .error e => .error e
      | .ok search =>
        match search.head? with
        | some seed =>
          match seed.releaseYear with
          | some y =>
            if y ≠ 0 then .ok (some (y + 1), yearConstraints.maxYear)
            else .ok (yearConstraints.minYear, yearConstraints.maxYear)
          | none => .ok (yearConstraints.minYear, yearConstraints.maxYear)
        | none => .ok (yearConstraints.minYear, yearConstraints.maxYear)
    | none => .ok (yearConstraints.minYear, yearConstraints.maxYear)
  match yearStep with
  | .error e => .error e
  | .ok (minYear, maxYear) =>
    let seedStep : Except String (List MovieItem) :=
      match seedTitle with
      | some st =>
        if st = "" then .ok []
        else
          match env.searchMovies st with
          | .error e => .error e
          | .ok search =>
            match search.head? with
            | none => .ok []
            | some seed =>
              match env.getMovieDetails seed.id with
              | .error e => .error e
              | .ok seedDetails =>
                match env.getSemanticMovieRecommendations seedDetails
                    ⟨excludedGenres, minYear, maxYear⟩ with
                | .error e => .error e
                | .ok semantic =>
                  let requiresSciFi := seedDetails.genres.contains "Science Fiction"
                  let semanticFiltered :=
                    if requiresSciFi then
                      semantic.filter (fun m => m.genres.contains "Science Fiction")
                    else semantic
                  let semanticNoTitles := filterExcludedTitles semanticFiltered excludedTitles
                  if !semanticNoTitles.isEmpty then .ok semanticNoTitles
                  else
                    match env.getMovieRecommendations seed.id
                        ⟨excludedGenres, minYear, maxYear⟩ with
                    | .error e => .error e
                    | .ok tmdb =>
                      let tmdbNoTitles := filterExcludedTitles tmdb excludedTitles
                      .ok
                        (if requiresSciFi then
                          tmdbNoTitles.filter (fun m => m.genres.contains "Science Fiction")
                        else tmdbNoTitles)
      | none => .ok []
    match seedStep with
    | .error e => .error e
    | .ok seedMovies =>
      let moviesStep : Except String (List MovieItem) :=
        if seedMovies.isEmpty then
          match env.getRecommendationsFromHistory userId ⟨excludedGenres, minYear, maxYear⟩ with
          | .error e => .error e
          | .ok historyRecs =>
            .ok (filterExcludedTitles historyRecs.movieRecommendations excludedTitles)
        else .ok seedMovies
      match moviesStep with
      | .error e => .error e
      | .ok movies =>
        if movies.isEmpty then .ok none
        else
          let excludedNote :=
            if excludedGenres.length > 0 then
              " Excluding: " ++ String.intercalate ", " excludedGenres ++ "."
            else ""
          let yearNote :=
            match minYear with
            | some y => " From " ++ toString y ++ " onward."
            | none => ""
          .ok (some
            { message :=
                (match seedTitle with
                 | some st =>
                   if st = "" then
                     "Here are recommendations based on your history." ++ excludedNote ++ yearNote
                   else
                     "Here are recommendations similar to " ++ st ++ "." ++ excludedNote ++ yearNote
                 | none =>
                   "Here are recommendations based on your history." ++ excludedNote ++ yearNote),
              reasoning := "Matched themes and applied your constraints.",
              movies := movies })

/-! ## Tool-calling loop tail of `chatWithTools` (src/lib/ai/chat.ts lines 474-591)

One LLM completion per iteration is abstracted as a `script` from the
iteration number (1-based, as the source increments `iteration` at the top
of the loop body) to the assistant reply.  Only the reply's `content`
(`string | null`) and the emptiness of its `tool_calls` steer `finalResponse`;
executed tool results are appended to the context but never touch it.
The returned string is both the value of `assistantMessage` and the content
persisted by the final `prisma.message.create`. -/

structure LLMReply where
  content : Option String
  tool_calls : List String
deriving DecidableEq

def maxIterations : Nat := 5

/-- The fixed exhaustion apology of chat.ts lines 578-581. -/
def exhaustionApology : String :=
  "I apologize, but I reached the maximum number of tool calls. Please try rephrasing your question."

/-- The fallback of `choice.message.content || ...` at chat.ts line 510. -/
def noContentApology : String := "I apologize, but I couldn't generate a response."

/-- JS `a || b` on a `string | null` left operand (`null` and `""` are falsy). -/
def jsOrElse (c : Option String) (d : String) : String :=
  match c with
  | some s => if s = "" then d else s
  | none => d

/-- The `while (iteration < maxIterations)` loop, structurally recursing on
`remaining = maxIterations - iteration`; returns the final `iteration` counter and
`finalResponse`.  A reply without tool calls sets `finalResponse` and breaks. -/
def toolLoopGo (script : Nat → LLMReply) : Nat → Nat → String → Nat × String
  | 0, iteration, finalResponse => (iteration, finalResponse)
  | remaining + 1, iteration, finalResponse =>
    let it := iteration + 1
    let reply := script it
    if reply.tool_calls.isEmpty then (it, jsOrElse reply.content noContentApology)
    else toolLoopGo script remaining it finalResponse

/-- The assistant message computed by the loop tail of `chatWithTools`: after the loop,
`if (iteration >= maxIterations)` overwrites `finalResponse` with the exhaustion
apology; the result is persisted and returned. -/
def chatWithToolsFinalResponse (script : Nat → LLMReply) : String :=
  let r := toolLoopGo script maxIterations 0 ""
  if r.1 ≥ maxIterations then exhaustionApology else r.2

/-- Failing input for the loop tail: iterations 1–4 reply with tool calls, iteration 5
replies with a direct answer and no tool calls. -/
def directAnswerAtFive : Nat → LLMReply :=
  fun i => if i < 5 then ⟨some "", ["search_movies"]⟩ else ⟨some "Here are your movies.", []⟩

/-- A variant where the direct answer arrives at iteration 3. -/
def directAnswerAtThree : Nat → LLMReply :=
  fun i => if i < 3 then ⟨some "", ["search_movies"]⟩ else ⟨some "Here are your movies.", []⟩

/-! ## Persistence helpers (src/lib/persistence.ts) -/

/-- `uniqueById` seen-set scan (persistence.ts lines 10-21): keep an item iff its `id`
has not been seen; the `Set` is modelled by the accumulator list. -/
def uniqueByIdAux {α : Type} [HasId α] (seen : List IdVal) : List α → List α
  | [] => []
  | x :: xs =>
    if HasId.getId x ∈ seen then uniqueByIdAux seen xs
    else x :: uniqueByIdAux (HasId.getId x :: seen) xs

/-- `uniqueById` (persistence.ts lines 10-21). -/
def uniqueById {α : Type} [HasId α] (items : List α) : List α :=
  uniqueByIdAux [] items

/-- One row of the Prisma `WatchedMovie` table (primary-key `id` column omitted; the
unique index is on `(userId, movieId)`). -/
structure WatchedMovieRow where
  userId : String
  movieId : Int
  movieTitle : String
  addedAt : Int
deriving DecidableEq

/-- The `(userId, movieId)` unique-index predicate. -/
def watchedKeyMatch (userId : String) (movieId : Int) (r : WatchedMovieRow) : Bool :=
  r.userId = userId && r.movieId = movieId

/-- Modelled Prisma `watchedMovie.upsert` on the `userId_movieId` unique index
(persistence.ts lines 36-53): update `movieTitle` and `addedAt` of the existing row,
or create a row whose `addedAt` defaults to `now()` per the schema. -/
def prismaUpsertWatchedMovie (state : List WatchedMovieRow) (userId : String)
    (movieId : Int) (movieTitle : String) (now : Int) : List WatchedMovieRow :=
  if state.any (watchedKeyMatch userId movieId) then
    state.map (fun r =>
      if watchedKeyMatch userId movieId r then
        { r with movieTitle := movieTitle, addedAt := now }
      else r)
  else state ++ [{ userId := userId, movieId := movieId, movieTitle := movieTitle,
                   addedAt := now }]

/-- `saveWatchedMovie` (persistence.ts lines 27-58).  The argument guard throws inside
the `try`, so it surfaces re-wrapped by the catch; `typeof movieId !== "number"` is
vacuous in the `Int` model.  `now` stands for `new Date()`. -/
def saveWatchedMovie (state : List WatchedMovieRow) (userId : String) (movieId : Int)
    (movieTitle : String) (now : Int) : Except String (List WatchedMovieRow) :=
  if userId = "" || movieTitle = "" then
    .error "Failed to save watched movie: Error: Invalid arguments passed to saveWatchedMovie"
  else .ok (prismaUpsertWatchedMovie state userId movieId movieTitle now)

/-- The collaborators of `getRecommendationsFromHistory` (its sibling `getUserHistory`
and the per-item catalog clients). -/
structure PersistEnv where
  getUserHistory : String → Except String UserHistory
  getMovieRecommendations : Int → Except String (List MovieItem)
  getTrackRecommendations : List String → Except String (List TrackRec)

/-- `.catch(err => [])` around one per-item recommendation fetch. -/
def catchToEmpty {α : Type} (r : Except String (List α)) : List α :=
  match r with
  | .ok l => l
  | .error _ => []

/-- `getRecommendationsFromHistory` (persistence.ts lines 155-206): take the three most
recent watched movies / listened songs, fetch catalog recommendations per item with
per-item failures degraded to `[]`, flatten, `uniqueById`, cap at 10.  A
`getUserHistory` failure re-throws wrapped by the outer catch. -/
def getRecommendationsFromHistory (env : PersistEnv) (userId : String) :
    Except String HistoryRecs :=
  match env.getUserHistory userId with
  | .error e => .error ("Failed to get recommendations from history: Error: " ++ e)
  | .ok history =>
    let recentMovies := history.watchedMovies.take 3
    let movieRecsArrays :=
      recentMovies.map (fun m => catchToEmpty (env.getMovieRecommendations m.movieId))
    let movieRecommendations := (uniqueById movieRecsArrays.flatten).take 10
    let recentSongs := history.listenedSongs.take 3
    let songRecsArrays :=
      recentSongs.map (fun s => catchToEmpty (env.getTrackRecommendations [s.trackId]))
    let songRecommendations := (uniqueById songRecsArrays.flatten).take 10
    .ok ⟨movieRecommendations, songRecommendations⟩

/-! ## Structured response contract (src/app/api/history/route.ts lines 17-103,
src/app/api/chat/route.ts lines 79-87 with src/app/page.tsx lines 159-177)

`JSON.parse` is modelled by a recursive-descent parser over the character
list, restricted to integer numerals and the single-character escapes
(`\uXXXX` escapes and fractional/exponent numbers are treated as parse
failures); object duplicate keys resolve to the last occurrence as in
ECMAScript.  The Zod `assistantPayloadSchema` is transcribed field by field
(`.nullable().optional()` accepts absent or `null`, collapsing both to
`none`). -/

inductive Json where
  | null
  | bool (b : Bool)
  | num (n : Int)
  | str (s : String)
  | arr (items : List Json)
  | obj (fields : List (String × Json))

/-- JSON whitespace. -/
def jsonWs (c : Char) : Bool :=
  (c = ' ' || c = '\t' || c = '\n' || c = '\r')

def skipJsonWs (cs : List Char) : List Char :=
  cs.dropWhile jsonWs

/-- Single-character string escapes of JSON. -/
def escChar : Char → Option Char
  | '"' => some '"'
  | '\\' => some '\\'
  | '/' => some '/'
  | 'b' => some (Char.ofNat 8)
  | 'f' => some (Char.ofNat 12)
  | 'n' => some '\n'
  | 'r' => some '\r'
  | 't' => some '\t'
  | _ => none

/-- Parse the body of a JSON string after the opening quote; returns the decoded
characters and the remainder after the closing quote. -/
def parseStringBody : Nat → List Char → Option (List Char × List Char)
  | 0, _ => none
  | _, [] => none
  | fuel + 1, c :: rest =>
    if c = '"' then some ([], rest)
    else if c = '\\' then
      match rest with
      | [] => none
      | e :: rest2 =>
        match escChar e with
        | none => none
        | some d =>
          match parseStringBody fuel rest2 with
          | some (s, r) => some (d :: s, r)
          | none => none
    else
      match parseStringBody fuel rest with
      | some (s, r) => some (c :: s, r)
      | none => none

/-- Parse an integer JSON numeral (optional minus, then digits). -/
def parseJsonInt (cs : List Char) : Option (Int × List Char) :=
  let (neg, cs1) :=
    match cs with
    | '-' :: t => (true, t)
    | _ => (false, cs)
  let digits := cs1.takeWhile Char.isDigit
  let rest := cs1.dropWhile Char.isDigit
  if digits.isEmpty then none
  else
    match rest with
    | '.' :: _ => none
    | 'e' :: _ => none
    | 'E' :: _ => none
    | _ =>
      let n : Int := digits.foldl (fun acc d => acc * 10 + Int.ofNat (d.toNat - 48)) 0
      some (if neg then -n else n, rest)

mutual

/-- Parse one JSON value (fuel-bounded recursive descent). -/
def parseJsonValue : Nat → List Char → Option (Json × List Char)
  | 0, _ => none
  | fuel + 1, cs0 =>
    let cs := skipJsonWs cs0
    match cs with
    | [] => none
    | c :: rest =>
      if c = '"' then
        match parseStringBody (rest.length + 1) rest with
        | some (s, r) => some (.str (String.mk s), r)
        | none => none
      else if c = '{' then parseJsonMembers fuel (skipJsonWs rest) true
      else if c = '[' then parseJsonElements fuel (skipJsonWs rest) true
      else if listStartsWith cs ("true".data) then some (.bool true, cs.drop 4)
      else if listStartsWith cs ("false".data) then some (.bool false, cs.drop 5)
      else if listStartsWith cs ("null".data) then some (.null, cs.drop 4)
      else
        match parseJsonInt cs with
        | some (n, r) => some (.num n, r)
        | none => none

/-- Parse object members after `{` (whitespace already skipped); `first` marks whether
no member has been consumed yet. -/
def parseJsonMembers : Nat → List Char → Bool → Option (Json × List Char)
  | 0, _, _ => none
  | fuel + 1, cs, first =>
    match cs with
    | '}' :: rest => if first then some (.obj [], rest) else none
    | '"' :: rest =>
      match parseStringBody (rest.length + 1) rest with
      | none => none
      | some (key, r1) =>
        match skipJsonWs r1 with
        | ':' :: r2 =>
          match parseJsonValue fuel r2 with
          | none => none
          | some (v, r3) =>
            match skipJsonWs r3 with
            | ',' :: r4 =>
              match parseJsonMembers fuel (skipJsonWs r4) false with
              | some (.obj fs, r5) => some (.obj ((String.mk key, v) :: fs), r5)
              | _ => none
            | '}' :: r4 => some (.obj [(String.mk key, v)], r4)
            | _ => none
        | _ => none
    | _ => none

/-- Parse array elements after `[` (whitespace already skipped). -/
def parseJsonElements : Nat → List Char → Bool → Option (Json × List Char)
  | 0, _, _ => none
  | fuel + 1, cs, first =>
    match cs with
    | ']' :: rest => if first then some (.arr [], rest) else none
    | _ =>
      match parseJsonValue fuel cs with
      | none => none
      | some (v, r1) =>
        match skipJsonWs r1 with
        | ',' :: r2 =>
          match parseJsonElements fuel (skipJsonWs r2) false with
          | some (.arr vs, r3) => some (.arr (v :: vs), r3)
          | _ => none
        | ']' :: r2 => some (.arr [v], r2)
        | _ => none

end

/-- `JSON.parse` on a whole string: one value plus trailing whitespace only. -/
def jsonParse (s : String) : Option Json :=
  match parseJsonValue (2 * s.data.length + 4) s.data with
  | some (j, rest) => if (skipJsonWs rest).isEmpty then some j else none
  | none => none

/-- Object field access with ECMAScript duplicate-key semantics (last wins). -/
def jGet (fields : List (String × Json)) (key : String) : Option Json :=
  List.lookup key fields.reverse

/-- One entry of the Zod `movies` array schema after parsing (optional/nullable fields
collapse to `none` when absent or `null`). -/
structure MovieCardPayload where
  id : IdVal
  title : String
  overview : Option String := none
  releaseYear : Option Int := none
  posterUrl : Option String := none
  genres : Option (List String) := none
  matchConfidence : Option String := none
deriving DecidableEq

/-- `z.string().nullable().optional()`. -/
def zOptNullStr : Option Json → Option (Option String)
  | none => some none
  | some .null => some none
  | some (.str s) => some (some s)
  | some _ => none

/-- `z.number().nullable().optional()` (integer model). -/
def zOptNullNum : Option Json → Option (Option Int)
  | none => some none
  | some .null => some none
  | some (.num n) => some (some n)
  | some _ => none

/-- `z.string().optional()` (a `null` value fails). -/
def zOptStr : Option Json → Option (Option String)
  | none => some none
  | some (.str s) => some (some s)
  | some _ => none

/-- `z.array(z.string())` element traversal. -/
def jStrList : List Json → Option (List String)
  | [] => some []
  | .str s :: rest => (jStrList rest).map (fun l => s :: l)
  | _ => none

/-- `z.array(z.string()).optional()`. -/
def zOptStrArray : Option Json → Option (Option (List String))
  | none => some none
  | some (.arr xs) => (jStrList xs).map some
  | some _ => none

/-- One movie entry of `assistantPayloadSchema` (history/route.ts lines 20-30). -/
def zParseMovie (j : Json) : Option MovieCardPayload :=
  match j with
  | .obj fs =>
    ((match jGet fs "id" with
      | some (.num n) => some (IdVal.num n)
      | some (.str s) => some (IdVal.str s)
      | _ => none) : Option IdVal).bind fun idv =>
    ((match jGet fs "title" with
      | some (.str t) => some t
      | _ => none) : Option String).bind fun title =>
    (zOptNullStr (jGet fs "overview")).bind fun overview =>
    (zOptNullNum (jGet fs "releaseYear")).bind fun releaseYear =>
    (zOptNullStr (jGet fs "posterUrl")).bind fun posterUrl =>
    (zOptStrArray (jGet fs "genres")).bind fun genres =>
    (zOptStr (jGet fs "matchConfidence")).map fun mc =>
      ⟨idv, title, overview, releaseYear, posterUrl, genres, mc⟩
  | _ => none

/-- The parsed `assistantPayloadSchema` value: required `message`, `movies` defaulting
to `[]` when absent. -/
structure AssistantPayload where
  message : String
  movies : List MovieCardPayload
deriving DecidableEq

/-- `assistantPayloadSchema.parse` (history/route.ts lines 17-33). -/
def zParsePayload (j : Json) : Option AssistantPayload :=
  match j with
  | .obj fs =>
    (match jGet fs "message" with
     | some (.str m) => some m
     | _ => none).bind fun message =>
    match jGet fs "movies" with
    | none => some ⟨message, []⟩
    | some (.arr xs) => (xs.mapM zParseMovie).map fun ms => ⟨message, ms⟩
    | some _ => none
  | _ => none

/-- `assistantPayloadSchema.parse(JSON.parse(content))` as a single partial function. -/
def parseAssistantPayload (content : String) : Option AssistantPayload :=
  (jsonParse content).bind zParsePayload

/-- The `{content, movies}` of one transformed message handed to the frontend. -/
structure TransformedMsg where
  content : String
  movies : List MovieCardPayload
deriving DecidableEq

/-- The history replay path for an assistant message (history/route.ts lines 76-93):
parse-then-validate inside `try`, degrading to the raw content with `movies: []` when
either step throws. -/
def historyReplayTransform (content : String) : TransformedMsg :=
  match jsonParse content with
  | some j =>
    (match zParsePayload j with
     | some p => ⟨p.message, p.movies⟩
     | none => ⟨content, []⟩)
  | none => ⟨content, []⟩

/-- The live chat response path for an assistant message: chat/route.ts lines 79-87
return the raw `assistantMessage` string as `message` with no `movies` field, and the
frontend (page.tsx lines 159-177) reads `payload.movies ?? []`, which is always `[]`;
no JSON parsing happens on this path. -/
def liveChatTransform (assistantMessage : String) : TransformedMsg :=
  ⟨assistantMessage, []⟩

/-- A well-formed structured assistant content, used as a concrete probe. -/
def sampleStructured : String :=
  "\x7b\"message\":\"Here you go\",\"movies\":[]\x7d"

/-! ## Concrete probe data used by closed instances -/

def inceptionSummary : MovieItem :=
  { id := 27205, title := "Inception", releaseYear := some 2010,
    overview := some "A mind-bending heist.", posterUrl := none, genres := [] }

def inceptionDetails : MovieDetails :=
  { id := 27205, title := "Inception", releaseYear := some 2010,
    overview := some "A mind-bending heist.", posterUrl := none,
    genres := ["Science Fiction", "Action"], topCast := [] }

def interstellarItem : MovieItem :=
  { id := 157336, title := "Interstellar", releaseYear := some 2014,
    overview := some "A space epic.", posterUrl := none, genres := ["Science Fiction"] }

def bladeRunnerItem : MovieItem :=
  { id := 78, title := "Blade Runner", releaseYear := some 1982,
    overview := some "A neo-noir classic.", posterUrl := none, genres := ["Science Fiction"] }

/-- Environment in which the semantic recommender throws while the catalog
recommendations and the history aggregation are healthy. -/
def chatEnvCex : ChatEnv :=
  { searchMovies := fun q => if q = "Inception" then .ok [inceptionSummary] else .error "unexpected query",
    getMovieDetails := fun i => if i = 27205 then .ok inceptionDetails else .error "unexpected id",
    getSemanticMovieRecommendations := fun _ _ => .error "semantic recommender unavailable",
    getMovieRecommendations := fun _ _ => .ok [interstellarItem],
    getRecommendationsFromHistory := fun _ _ => .ok ⟨[bladeRunnerItem], []⟩ }

/-- Tool-executor environment in which the semantic recommender throws while seed
details and catalog recommendations resolve. -/
def toolEnvW : ToolEnv :=
  { searchMovies := fun _ => .ok [inceptionSummary],
    getMovieDetails := fun i => if i = 27205 then .ok inceptionDetails else .error "unexpected id",
    getMovieRecommendations := fun _ => .ok [interstellarItem],
    getSemanticMovieRecommendations := fun _ => .error "embedding service down",
    saveWatchedMovie := fun _ _ _ => .ok (),
    getUserHistory := fun _ => .ok ⟨[], []⟩,
    getRecommendationsFromHistory := fun _ => .ok ⟨[], []⟩,
    getUserFeedback := fun _ => .ok [] }

/-- Persistence environment with one watched movie whose per-item recommendation fetch
fails, and one whose fetch succeeds with a duplicated list. -/
def persistEnvW : PersistEnv :=
  { getUserHistory := fun _ =>
      .ok ⟨[⟨"w1", 27205, "Inception", 10⟩, ⟨"w2", 78, "Blade Runner", 9⟩], []⟩,
    getMovieRecommendations := fun i =>
      if i = 27205 then .error "TMDB rate limit exceeded"
      else .ok [interstellarItem, interstellarItem, bladeRunnerItem],
    getTrackRecommendations := fun _ => .ok [] }

/-! ## Helper lemmas -/

theorem mem_dedupFirstAux (a : String) :
    ∀ (l : List String) (seen : List String), a ∈ l → a ∈ dedupFirstAux seen l ∨ a ∈ seen := by
  intro l
  induction l with
  | nil => intro seen h; cases h
  | cons x xs ih =>
    intro seen h
    by_cases hx : x ∈ seen
    · simp only [dedupFirstAux, if_pos hx]
      rcases List.mem_cons.1 h with rfl | hmem
      · exact Or.inr hx
      · exact ih seen hmem
    · simp only [dedupFirstAux, if_neg hx]
      rcases List.mem_cons.1 h with rfl | hmem
      · exact Or.inl (List.mem_cons_self _ _)
      · rcases ih (x :: seen) hmem with h1 | h2
        · exact Or.inl (List.mem_cons_of_mem _ h1)
        · rcases List.mem_cons.1 h2 with rfl | h3
          · exact Or.inl (List.mem_cons_self _ _)
          · exact Or.inr h3

theorem mem_dedupFirst {a : String} {l : List String} (h : a ∈ l) : a ∈ dedupFirst l := by
  rcases mem_dedupFirstAux a l [] h with h1 | h2
  · exact h1
  · cases h2

theorem listStartsWith_nil (a : List Char) : listStartsWith a [] = true := by
  cases a <;> rfl

theorem listStartsWith_append {p : List Char} :
    ∀ {a : List Char} (b : List Char), listStartsWith a p = true →
      listStartsWith (a ++ b) p = true := by
  induction p with
  | nil => intro a b _; exact listStartsWith_nil _
  | cons q qs ih =>
    intro a b h
    cases a with
    | nil => simp [listStartsWith] at h
    | cons x xs =>
      simp only [listStartsWith, Bool.and_eq_true] at h
      simp only [List.cons_append, listStartsWith, Bool.and_eq_true]
      exact ⟨h.1, ih b h.2⟩

theorem substrIncludes_of_startsWith {hay pat : List Char}
    (h : listStartsWith hay pat = true) : substrIncludes hay pat = true := by
  cases hay with
  | nil => cases pat with
    | nil => rfl
    | cons q qs => simp [listStartsWith] at h
  | cons c t => simp [substrIncludes, h]

theorem string_data_append (s t : String) : (s ++ t).data = s.data ++ t.data := by
  cases s; cases t; rfl

/-! ## C1 -/

/-- C1: the claim says a tool-call-free reply at any iteration `i ≤ 5` is returned and
persisted, the exhaustion apology appearing only when no such reply occurred.  At the
failing input `directAnswerAtFive` — four tool-calling iterations, then a direct
answer at iteration 5 — the loop tail discards the direct answer and yields the
exhaustion apology, because the post-loop guard `iteration >= maxIterations` also
fires when the loop exits through the no-tool-calls break at iteration 5.  A direct
answer at iteration 3 is returned as claimed. -/
theorem chatLoop_discards_fifth_iteration_answer :
    chatWithToolsFinalResponse directAnswerAtFive = exhaustionApology ∧
    (directAnswerAtFive 5).tool_calls = [] ∧
    jsOrElse (directAnswerAtFive 5).content noContentApology = "Here are your movies." ∧
    "Here are your movies." ≠ exhaustionApology ∧
    chatWithToolsFinalResponse directAnswerAtThree = "Here are your movies." := by
  refine ⟨by decide, by decide, by decide, by decide, by decide⟩

/-! ## C5 -/

/-- C5 (counterexample): the spec's cue list omits `"not"`, which the source's
`AVOID_CUES` contains.  `"not comedy"` and `"not \"Alien\""` contain none of the five
claimed cue words as whole words, yet the extractors return non-empty exclusions. -/
theorem extractors_fire_on_not_without_spec_cues :
    ((["avoid", "no", "without", "exclude", "skip"] : List String).all
      (fun cue => !containsWord cue.data (lowerList "not comedy"))) = true ∧
    ((["avoid", "no", "without", "exclude", "skip"] : List String).all
      (fun cue => !containsWord cue.data (lowerList "not \"Alien\""))) = true ∧
    extractExcludedGenres "not comedy" = ["Comedy"] ∧
    extractExcludedTitles "not \"Alien\"" = ["Alien"] := by
  refine ⟨by decide, by decide, by decide, by decide⟩

/-- C5 (amended): for every input text containing none of the source's six negation
cue words `"avoid"`, `"no"`, `"not"`, `"without"`, `"exclude"`, `"skip"` as whole
words, both `extractExcludedGenres` and `extractExcludedTitles` return the empty set,
even if the text mentions genre aliases or contains quoted titles. -/
theorem no_cue_no_exclusions (message : String)
    (h : (AVOID_CUES.all (fun cue => !containsWord cue.data (lowerList message))) = true) :
    extractExcludedGenres message = [] ∧ extractExcludedTitles message = [] := by
  have hAny : hasAvoidCue (lowerList message) = false := by
    unfold hasAvoidCue
    rw [List.any_eq_false]
    intro cue hcue
    have := List.all_eq_true.1 h cue hcue
    simpa using this
  constructor
  · simp only [extractExcludedGenres, hAny, Bool.not_false, if_true]
  · simp only [extractExcludedTitles, hAny, Bool.not_false, if_true]

/-- Witness for `no_cue_no_exclusions` at a text full of genre words and quotes. -/
theorem no_cue_no_exclusions_witness :
    extractExcludedGenres "I love horror comedies like \"Scream\"" = [] ∧
    extractExcludedTitles "I love horror comedies like \"Scream\"" = [] :=
  no_cue_no_exclusions "I love horror comedies like \"Scream\"" (by decide)

/-! ## C6 -/

/-- C6: `extractYearConstraints` returns `{minYear: 2015}` for "movies after 2015",
`{maxYear: 1990}` for "something older than 1990" and `{minYear: currentYear − 10}`
for "last 10 years"; and the `after/since YYYY` pattern is checked first, so whenever
it matches (year `y`) the result is `{minYear: y}` even if a recency cue is present. -/
theorem yearConstraints_examples_and_precedence :
    (∀ currentYear : Int,
      extractYearConstraints "movies after 2015" currentYear =
        { minYear := some 2015 }) ∧
    (∀ currentYear : Int,
      extractYearConstraints "something older than 1990" currentYear =
        { maxYear := some 1990 }) ∧
    (∀ currentYear : Int,
      extractYearConstraints "last 10 years" currentYear =
        { minYear := some (currentYear - 10) }) ∧
    (∀ (message : String) (currentYear : Int) (y : Nat),
      matchAfterSince (lowerList message) = some y →
      hasRecentCue (lowerList message) = true →
      extractYearConstraints message currentYear = { minYear := some (Int.ofNat y) }) := by
  refine ⟨?_, ?_, ?_, ?_⟩
  · intro cy
    have h : matchAfterSince (lowerList "movies after 2015") = some 2015 := by decide
    simp only [extractYearConstraints, h]
    rfl
  · intro cy
    have h1 : matchAfterSince (lowerList "something older than 1990") = none := by decide
    have h2 : matchAtLeast (lowerList "something older than 1990") = none := by decide
    have h3 : matchBefore (lowerList "something older than 1990") = some 1990 := by decide
    simp only [extractYearConstraints, h1, h2, h3]
    rfl
  · intro cy
    have h1 : matchAfterSince (lowerList "last 10 years") = none := by decide
    have h2 : matchAtLeast (lowerList "last 10 years") = none := by decide
    have h3 : matchBefore (lowerList "last 10 years") = none := by decide
    have h4 : matchLastYears (lowerList "last 10 years") = some 10 := by decide
    simp only [extractYearConstraints, h1, h2, h3, h4]
    rfl
  · intro message cy y h _
    simp only [extractYearConstraints, h]

/-- Witness for the precedence clause at "recent movies after 2015". -/
theorem yearConstraints_precedence_witness :
    extractYearConstraints "recent movies after 2015" 2026 = { minYear := some 2015 } :=
  yearConstraints_examples_and_precedence.2.2.2 "recent movies after 2015" 2026 2015
    (by decide) (by decide)

/-! ## C10 -/

/-- C10: every message containing a negation cue word (whole-word, per the source's
`AVOID_CUES`) and the substring "star trek" in any letter case gets the hardcoded
title "Star Trek" in `extractExcludedTitles`, quoted titles or franchise phrases
notwithstanding. -/
theorem star_trek_always_excluded (message : String)
    (hcue : hasAvoidCue (lowerList message) = true)
    (htrek : substrIncludes (lowerList message) ("star trek".data) = true) :
    "Star Trek" ∈ extractExcludedTitles message := by
  simp only [extractExcludedTitles, hcue, htrek, Bool.and_self, Bool.not_true,
    Bool.false_eq_true, if_false, if_true]
  exact mem_dedupFirst (by simp)

/-- Witness for `star_trek_always_excluded` at "avoid star trek". -/
theorem star_trek_always_excluded_witness :
    "Star Trek" ∈ extractExcludedTitles "avoid star trek" :=
  star_trek_always_excluded "avoid star trek" (by decide) (by decide)

/-! ## C2 -/

/-- C2 (counterexample): on the valid structured content `sampleStructured`, the
history replay path produces the parsed `{message, movies}` payload, while the live
chat response path hands the raw JSON string through as the message with an empty
movies list — the two paths are not applying identical parse-then-fallback logic. -/
theorem live_and_history_paths_diverge :
    parseAssistantPayload sampleStructured = some ⟨"Here you go", []⟩ ∧
    historyReplayTransform sampleStructured = ⟨"Here you go", []⟩ ∧
    liveChatTransform sampleStructured = ⟨sampleStructured, []⟩ ∧
    sampleStructured ≠ "Here you go" ∧
    historyReplayTransform sampleStructured ≠ liveChatTransform sampleStructured := by
  refine ⟨by decide, by decide, by decide, by decide, by decide⟩

/-- C2 (amended): only the history replay path applies JSON-parse-then-fallback —
it yields the structured `{message, movies}` payload exactly when the content parses
and validates (movies defaulting to `[]`), and degrades to `{message: raw content,
movies: []}` without throwing otherwise; the live chat response path always returns
the raw assistant content with an empty movies list, performing no parsing. -/
theorem replay_parses_live_does_not (content : String) :
    (∀ p : AssistantPayload, parseAssistantPayload content = some p →
      historyReplayTransform content = ⟨p.message, p.movies⟩) ∧
    (parseAssistantPayload content = none →
      historyReplayTransform content = ⟨content, []⟩) ∧
    liveChatTransform content = ⟨content, []⟩ := by
  refine ⟨?_, ?_, rfl⟩
  · intro p hp
    unfold parseAssistantPayload at hp
    unfold historyReplayTransform
    cases hj : jsonParse content with
    | none => rw [hj] at hp; simp at hp
    | some j =>
      rw [hj] at hp
      simp only [Option.bind] at hp
      simp only [hp]
  · intro hp
    unfold parseAssistantPayload at hp
    unfold historyReplayTransform
    cases hj : jsonParse content with
    | none => rfl
    | some j =>
      rw [hj] at hp
      simp only [Option.bind] at hp
      simp only [hp]

/-- Witness for `replay_parses_live_does_not`: the structured branch at
`sampleStructured` and the fallback branch at a plain-text content. -/
theorem replay_parses_live_does_not_witness :
    historyReplayTransform sampleStructured = ⟨"Here you go", []⟩ ∧
    historyReplayTransform "plain text answer" = ⟨"plain text answer", []⟩ :=
  ⟨(replay_parses_live_does_not sampleStructured).1 ⟨"Here you go", []⟩ (by decide),
   (replay_parses_live_does_not "plain text answer").2.1 (by decide)⟩

/-! ## C7 -/

/-- C7: for every argument map carrying a `movie_id` whose seed details resolve, if the
semantic recommender throws or returns an empty list, the compound tool
`get_semantic_movie_recommendations` falls back to `getMovieRecommendations(movie_id)`
and, when the fallback succeeds, returns its result with no error field. -/
theorem semantic_tool_falls_back_to_catalog (env : ToolEnv) (args : ToolArgs)
    (userId : String) (movie_id : Int) (seed : MovieDetails) (recs : List MovieItem)
    (harg : argNum args "movie_id" = some movie_id)
    (hseed : env.getMovieDetails movie_id = .ok seed)
    (hsem : env.getSemanticMovieRecommendations seed = .ok [] ∨
      ∃ e, env.getSemanticMovieRecommendations seed = .error e)
    (hfall : env.getMovieRecommendations movie_id = .ok recs) :
    executeTool env "get_semantic_movie_recommendations" args userId =
      ⟨some (.summaries recs), none⟩ := by
  rcases hsem with hsem | ⟨e, hsem⟩ <;>
    simp [executeTool, harg, hseed, hsem, hfall]

/-- Witness for `semantic_tool_falls_back_to_catalog` in `toolEnvW`, where the
semantic recommender throws. -/
theorem semantic_tool_falls_back_to_catalog_witness :
    executeTool toolEnvW "get_semantic_movie_recommendations"
      [("movie_id", .num 27205)] "user-1" = ⟨some (.summaries [interstellarItem]), none⟩ :=
  semantic_tool_falls_back_to_catalog toolEnvW [("movie_id", .num 27205)] "user-1"
    27205 inceptionDetails [interstellarItem] (by decide) (by decide)
    (Or.inr ⟨"embedding service down", by decide⟩) (by decide)

/-! ## C3 -/

theorem executeTool_shape (env : ToolEnv) (toolName : String) (args : ToolArgs)
    (userId : String) :
    (∃ r, executeTool env toolName args userId = ⟨some r, none⟩) ∨
    (∃ e, executeTool env toolName args userId = ⟨none, some e⟩) := by
  unfold executeTool
  repeat' split
  all_goals first
    | exact Or.inl ⟨_, rfl⟩
    | exact Or.inr ⟨_, rfl⟩

/-- C3: `executeTool` never throws — every outcome is either `{result}` with no error
or `{result: null, error}`; a name outside the registry yields the structured
`Unknown tool` error; and (representative tools) validation success plus collaborator
success yields `{result}`, while a failing collaborator or failing schema validation
yields `{result: null, error}`. -/
theorem executeTool_total_structured :
    (∀ (env : ToolEnv) (name : String) (args : ToolArgs) (uid : String),
      (∃ r, executeTool env name args uid = ⟨some r, none⟩) ∨
      (∃ e, executeTool env name args uid = ⟨none, some e⟩)) ∧
    (∀ (env : ToolEnv) (name : String) (args : ToolArgs) (uid : String),
      name ∉ knownToolNames →
      executeTool env name args uid = ⟨none, some ("Unknown tool: " ++ name)⟩ ∧
      substrIncludes ("Unknown tool: " ++ name).data ("Unknown tool".data) = true) ∧
    (∀ (env : ToolEnv) (args : ToolArgs) (uid q : String) (res : List MovieItem),
      argString args "query" = some q → env.searchMovies q = .ok res →
      executeTool env "search_movies" args uid = ⟨some (.summaries res), none⟩) ∧
    (∀ (env : ToolEnv) (args : ToolArgs) (uid q e : String),
      argString args "query" = some q → env.searchMovies q = .error e →
      executeTool env "search_movies" args uid = ⟨none, some e⟩) ∧
    (∀ (env : ToolEnv) (args : ToolArgs) (uid : String),
      argString args "query" = none →
      executeTool env "search_movies" args uid = ⟨none, some zodErrorMessage⟩) ∧
    (∀ (env : ToolEnv) (args : ToolArgs) (uid : String) (mid : Int) (t u : String),
      argNum args "movie_id" = some mid → argString args "movie_title" = some t →
      argString args "user_id" = some u → env.saveWatchedMovie u mid t = .ok () →
      executeTool env "save_watched_movie" args uid = ⟨some .savedOk, none⟩) ∧
    (∀ (env : ToolEnv) (args : ToolArgs) (uid : String) (mid : Int) (t u e : String),
      argNum args "movie_id" = some mid → argString args "movie_title" = some t →
      argString args "user_id" = some u → env.saveWatchedMovie u mid t = .error e →
      executeTool env "save_watched_movie" args uid = ⟨none, some e⟩) ∧
    (∀ (env : ToolEnv) (args : ToolArgs) (uid u : String) (r : HistoryRecs),
      argString args "user_id" = some u → env.getRecommendationsFromHistory u = .ok r →
      executeTool env "get_recommendations_from_history" args uid =
        ⟨some (.recs r), none⟩) := by
  refine ⟨executeTool_shape, ?_, ?_, ?_, ?_, ?_, ?_, ?_⟩
  · intro env name args uid h
    simp only [knownToolNames, List.mem_cons, List.not_mem_nil, or_false, not_or] at h
    obtain ⟨h1, h2, h3, h4, h5, h6, h7, h8⟩ := h
    constructor
    · simp [executeTool, h1, h2, h3, h4, h5, h6, h7, h8]
    · apply substrIncludes_of_startsWith
      rw [string_data_append]
      exact listStartsWith_append _ (by decide)
  · intro env args uid q res h1 h2
    simp [executeTool, h1, h2]
  · intro env args uid q e h1 h2
    simp [executeTool, h1, h2]
  · intro env args uid h1
    simp [executeTool, h1]
  · intro env args uid mid t u h1 h2 h3 h4
    simp [executeTool, h1, h2, h3, h4]
  · intro env args uid mid t u e h1 h2 h3 h4
    simp [executeTool, h1, h2, h3, h4]
  · intro env args uid u r h1 h2
    simp [executeTool, h1, h2]

/-- Witness for `executeTool_total_structured`: the unknown-tool clause at
"mystery_tool" and a successful `search_movies` call in `toolEnvW`. -/
theorem executeTool_total_structured_witness :
    executeTool toolEnvW "mystery_tool" [] "user-1" =
      ⟨none, some "Unknown tool: mystery_tool"⟩ ∧
    executeTool toolEnvW "search_movies" [("query", .str "Inception")] "user-1" =
      ⟨some (.summaries [inceptionSummary]), none⟩ :=
  ⟨(executeTool_total_structured.2.1 toolEnvW "mystery_tool" [] "user-1" (by decide)).1,
   executeTool_total_structured.2.2.1 toolEnvW [("query", .str "Inception")] "user-1"
     "Inception" [inceptionSummary] (by decide) (by decide)⟩

/-! ## C8 -/

theorem uniqueByIdAux_getId_not_mem {α : Type} [HasId α] :
    ∀ (l : List α) (seen : List IdVal) (x : α),
      x ∈ uniqueByIdAux seen l → HasId.getId x ∉ seen := by
  intro l
  induction l with
  | nil => intro seen x h; cases h
  | cons a as ih =>
    intro seen x h
    by_cases ha : HasId.getId a ∈ seen
    · simp only [uniqueByIdAux, if_pos ha] at h
      exact ih seen x h
    · simp only [uniqueByIdAux, if_neg ha] at h
      rcases List.mem_cons.1 h with rfl | hm
      · exact ha
      · intro hmem
        exact ih _ x hm (List.mem_cons_of_mem _ hmem)

theorem uniqueByIdAux_pairwise {α : Type} [HasId α] :
    ∀ (l : List α) (seen : List IdVal),
      (uniqueByIdAux seen l).Pairwise (fun a b => HasId.getId a ≠ HasId.getId b) := by
  intro l
  induction l with
  | nil => intro seen; exact List.Pairwise.nil
  | cons a as ih =>
    intro seen
    by_cases ha : HasId.getId a ∈ seen
    · simp only [uniqueByIdAux, if_pos ha]; exact ih seen
    · simp only [uniqueByIdAux, if_neg ha]
      refine List.Pairwise.cons ?_ (ih _)
      intro b hb heq
      exact uniqueByIdAux_getId_not_mem as _ b hb (heq ▸ List.mem_cons_self _ _)

theorem uniqueByIdAux_of_clean {α : Type} [HasId α] :
    ∀ (l : List α) (seen : List IdVal),
      (∀ x ∈ l, HasId.getId x ∉ seen) →
      l.Pairwise (fun a b => HasId.getId a ≠ HasId.getId b) →
      uniqueByIdAux seen l = l := by
  intro l
  induction l with
  | nil => intro seen _ _; rfl
  | cons a as ih =>
    intro seen hmem hpw
    have ha : HasId.getId a ∉ seen := hmem a (List.mem_cons_self _ _)
    simp only [uniqueByIdAux, if_neg ha]
    congr 1
    rcases List.pairwise_cons.1 hpw with ⟨hhead, htail⟩
    apply ih
    · intro x hx hin
      rcases List.mem_cons.1 hin with heq | hin2
      · exact hhead x hx heq.symm
      · exact hmem x (List.mem_cons_of_mem _ hx) hin2
    · exact htail

theorem uniqueByIdAux_countP_zero {α : Type} [HasId α] (v : IdVal) (l : List α)
    (seen : List IdVal) (hv : v ∈ seen) :
    (uniqueByIdAux seen l).countP (fun x => HasId.getId x == v) = 0 := by
  rw [List.countP_eq_zero]
  intro a ha hpa
  rw [beq_iff_eq] at hpa
  exact uniqueByIdAux_getId_not_mem l seen a ha (hpa ▸ hv)

theorem uniqueByIdAux_countP_one {α : Type} [HasId α] (v : IdVal) :
    ∀ (l : List α) (seen : List IdVal), v ∉ seen →
      1 ≤ l.countP (fun x => HasId.getId x == v) →
      (uniqueByIdAux seen l).countP (fun x => HasId.getId x == v) = 1 := by
  intro l
  induction l with
  | nil => intro seen _ h; simp [List.countP_nil] at h
  | cons a as ih =>
    intro seen hv h
    by_cases hav : HasId.getId a = v
    · by_cases ha : HasId.getId a ∈ seen
      · exact absurd (hav ▸ ha) hv
      · simp only [uniqueByIdAux, if_neg ha, List.countP_cons]
        rw [uniqueByIdAux_countP_zero v as _ (hav ▸ List.mem_cons_self _ _)]
        simp [hav]
    · have hav' : (HasId.getId a == v) = false := beq_eq_false_iff_ne.2 hav
      have h' : 1 ≤ as.countP (fun x => HasId.getId x == v) := by
        rw [List.countP_cons, hav'] at h
        simpa using h
      by_cases ha : HasId.getId a ∈ seen
      · simp only [uniqueByIdAux, if_pos ha]
        exact ih seen hv h'
      · simp only [uniqueByIdAux, if_neg ha, List.countP_cons, hav']
        have : v ∉ HasId.getId a :: seen := by
          intro hin
          rcases List.mem_cons.1 hin with heq | hin2
          · exact hav heq.symm
          · exact hv hin2
        simpa using ih _ this h'

/-- C8: `uniqueById` is idempotent, collapses every duplicated id to exactly one entry,
and leaves pairwise-distinct ids; `getRecommendationsFromHistory` returns at most 10
movie recommendations with pairwise-distinct ids. -/
theorem dedupe_idempotent_and_capped :
    (∀ l : List MovieItem, uniqueById (uniqueById l) = uniqueById l) ∧
    (∀ (l : List MovieItem) (v : IdVal),
      2 ≤ l.countP (fun x => HasId.getId x == v) →
      (uniqueById l).countP (fun x => HasId.getId x == v) = 1) ∧
    (∀ l : List MovieItem,
      (uniqueById l).Pairwise (fun a b => HasId.getId a ≠ HasId.getId b)) ∧
    (∀ (env : PersistEnv) (uid : String) (r : HistoryRecs),
      getRecommendationsFromHistory env uid = .ok r →
      r.movieRecommendations.length ≤ 10 ∧
      r.movieRecommendations.Pairwise (fun a b => HasId.getId a ≠ HasId.getId b)) := by
  refine ⟨?_, ?_, ?_, ?_⟩
  · intro l
    exact uniqueByIdAux_of_clean _ _ (fun x _ h => (List.not_mem_nil _ h).elim) (uniqueByIdAux_pairwise l [])
  · intro l v h
    exact uniqueByIdAux_countP_one v l [] (fun h => (List.not_mem_nil _ h).elim) (by omega)
  · intro l
    exact uniqueByIdAux_pairwise l []
  · intro env uid r h
    unfold getRecommendationsFromHistory at h
    cases hh : env.getUserHistory uid with
    | error e => rw [hh] at h; cases h
    | ok hist =>
      rw [hh] at h
      have hr := Except.ok.inj h
      rw [← hr]
      constructor
      · exact List.length_take_le _ _
      · exact List.Pairwise.sublist (List.take_sublist _ _) (uniqueByIdAux_pairwise _ _)

def dupIdList : List MovieItem :=
  [⟨1, "First Title", none, none, none, [], none⟩,
   ⟨1, "Second Title", none, none, none, [], none⟩]

/-- Witness for `dedupe_idempotent_and_capped`: a two-entry list sharing one id, and
the history aggregation of `persistEnvW`. -/
theorem dedupe_idempotent_and_capped_witness :
    (uniqueById dupIdList).countP (fun x => HasId.getId x == IdVal.num 1) = 1 ∧
    ((⟨[interstellarItem, bladeRunnerItem], []⟩ : HistoryRecs).movieRecommendations).length ≤ 10 :=
  ⟨dedupe_idempotent_and_capped.2.1 dupIdList (IdVal.num 1) (by decide),
   (dedupe_idempotent_and_capped.2.2.2 persistEnvW "user-1"
      ⟨[interstellarItem, bladeRunnerItem], []⟩ (by decide)).1⟩

/-! ## C9 -/

theorem watchedKeyMatch_update (uid : String) (mid : Int) (t : String) (now : Int)
    (r : WatchedMovieRow) :
    watchedKeyMatch uid mid { r with movieTitle := t, addedAt := now } =
      watchedKeyMatch uid mid r := rfl

theorem countP_map_update (uid : String) (mid : Int) (t : String) (now : Int) :
    ∀ s : List WatchedMovieRow,
      (s.map (fun r =>
        if watchedKeyMatch uid mid r then { r with movieTitle := t, addedAt := now }
        else r)).countP (watchedKeyMatch uid mid) = s.countP (watchedKeyMatch uid mid) := by
  intro s
  induction s with
  | nil => rfl
  | cons a as ih =>
    simp only [List.map_cons, List.countP_cons, ih]
    congr 1
    by_cases ha : watchedKeyMatch uid mid a = true
    · rw [if_pos ha, watchedKeyMatch_update]
    · rw [if_neg ha]

theorem countP_upsert (state : List WatchedMovieRow) (uid : String) (mid : Int)
    (t : String) (now : Int) :
    (prismaUpsertWatchedMovie state uid mid t now).countP (watchedKeyMatch uid mid) =
      if state.any (watchedKeyMatch uid mid) then state.countP (watchedKeyMatch uid mid)
      else state.countP (watchedKeyMatch uid mid) + 1 := by
  unfold prismaUpsertWatchedMovie
  by_cases h : state.any (watchedKeyMatch uid mid)
  · rw [if_pos h, if_pos h]
    exact countP_map_update uid mid t now state
  · rw [if_neg h, if_neg h, List.countP_append]
    have hnew : watchedKeyMatch uid mid
        ({ userId := uid, movieId := mid, movieTitle := t, addedAt := now } :
          WatchedMovieRow) = true := by
      simp [watchedKeyMatch]
    simp [hnew]

theorem mem_upsert_key (state : List WatchedMovieRow) (uid : String) (mid : Int)
    (t : String) (now : Int) (r : WatchedMovieRow)
    (hr : r ∈ prismaUpsertWatchedMovie state uid mid t now)
    (hk : watchedKeyMatch uid mid r = true) :
    r.movieTitle = t ∧ r.addedAt = now := by
  unfold prismaUpsertWatchedMovie at hr
  by_cases h : state.any (watchedKeyMatch uid mid)
  · rw [if_pos h] at hr
    rcases List.mem_map.1 hr with ⟨a, _, rfl⟩
    by_cases hka : watchedKeyMatch uid mid a = true
    · rw [if_pos hka]
      exact ⟨rfl, rfl⟩
    · rw [if_neg hka] at hk
      exact absurd hk hka
  · rw [if_neg h] at hr
    rcases List.mem_append.1 hr with hmem | hnew
    · exact absurd (List.any_eq_true.2 ⟨r, hmem, hk⟩) h
    · rcases List.mem_singleton.1 hnew with rfl
      exact ⟨rfl, rfl⟩

/-- C9: starting from any state satisfying the `(userId, movieId)` unique constraint,
calling `saveWatchedMovie` twice for the same pair with different titles succeeds and
leaves exactly one row for that pair, holding the latest title and the refreshed
timestamp — no duplicate row is created. -/
theorem saveWatched_upsert_no_duplicates (state : List WatchedMovieRow) (uid : String)
    (mid : Int) (t1 t2 : String) (time1 time2 : Int)
    (huid : uid ≠ "") (ht1 : t1 ≠ "") (ht2 : t2 ≠ "")
    (hinv : state.countP (watchedKeyMatch uid mid) ≤ 1) :
    ∃ s1 s2,
      saveWatchedMovie state uid mid t1 time1 = .ok s1 ∧
      saveWatchedMovie s1 uid mid t2 time2 = .ok s2 ∧
      s2.countP (watchedKeyMatch uid mid) = 1 ∧
      ∀ r ∈ s2, watchedKeyMatch uid mid r = true →
        r.movieTitle = t2 ∧ r.addedAt = time2 := by
  refine ⟨prismaUpsertWatchedMovie state uid mid t1 time1,
    prismaUpsertWatchedMovie (prismaUpsertWatchedMovie state uid mid t1 time1)
      uid mid t2 time2, ?_, ?_, ?_, ?_⟩
  · simp [saveWatchedMovie, huid, ht1]
  · simp [saveWatchedMovie, huid, ht2]
  · have h1 : (prismaUpsertWatchedMovie state uid mid t1 time1).countP
        (watchedKeyMatch uid mid) = 1 := by
      rw [countP_upsert]
      by_cases h : state.any (watchedKeyMatch uid mid)
      · rw [if_pos h]
        have hpos : 0 < state.countP (watchedKeyMatch uid mid) :=
          List.countP_pos_iff.2 (List.any_eq_true.1 h)
        omega
      · rw [if_neg h]
        have hz : state.countP (watchedKeyMatch uid mid) = 0 := by
          rw [List.countP_eq_zero]
          intro a ha hpa
          exact h (List.any_eq_true.2 ⟨a, ha, hpa⟩)
        omega
    have hany : (prismaUpsertWatchedMovie state uid mid t1 time1).any
        (watchedKeyMatch uid mid) = true :=
      List.any_eq_true.2 (List.countP_pos_iff.1 (by omega))
    rw [countP_upsert, if_pos hany]
    exact h1
  · intro r hr hk
    exact mem_upsert_key _ uid mid t2 time2 r hr hk

/-- Witness for `saveWatched_upsert_no_duplicates` from the empty table. -/
theorem saveWatched_upsert_no_duplicates_witness :
    ∃ s1 s2,
      saveWatchedMovie [] "user-1" 42 "Old Title" 5 = .ok s1 ∧
      saveWatchedMovie s1 "user-1" 42 "New Title" 9 = .ok s2 ∧
      s2.countP (watchedKeyMatch "user-1" 42) = 1 ∧
      ∀ r ∈ s2, watchedKeyMatch "user-1" 42 r = true →
        r.movieTitle = "New Title" ∧ r.addedAt = 9 :=
  saveWatched_upsert_no_duplicates [] "user-1" 42 "Old Title" "New Title" 5 9
    (by decide) (by decide) (by decide) (by decide)

/-! ## C4 -/

/-- C4 (counterexample): in `chatEnvCex` the semantic recommender is the only failing
source — catalog recommendations and the history aggregation both succeed with
non-empty lists — yet `buildRecommendationResponse` aborts with the semantic error
instead of degrading that source to an empty list, because its body has no
`try/catch`. -/
theorem single_source_failure_aborts_merge :
    chatEnvCex.getMovieRecommendations 27205 ⟨[], none, none⟩ = .ok [interstellarItem] ∧
    chatEnvCex.getRecommendationsFromHistory "user-1" ⟨[], none, none⟩ =
      .ok ⟨[bladeRunnerItem], []⟩ ∧
    buildRecommendationResponse chatEnvCex 2026 "movies like Inception" [] "user-1" =
      .error "semantic recommender unavailable" := by
  refine ⟨by decide, by decide, by decide⟩

/-- C4 (amended): the only degradations in the merge are (i) an *empty* (not thrown)
semantic result, which falls back to catalog recommendations, and (ii) per-item
catalog failures inside the history aggregation, absorbed by
`getRecommendationsFromHistory` whenever the user history itself loads; a *thrown*
error from the semantic recommender on a resolved seed propagates and aborts
`buildRecommendationResponse`. -/
theorem merge_failure_policy :
    (∀ (env : ChatEnv) (currentYear : Int) (msg : String) (history : List ChatMsg)
        (userId st : String) (seed : MovieItem) (rest : List MovieItem)
        (details : MovieDetails) (e : String),
      extractSeedTitle msg = some st → st ≠ "" →
      (extractYearConstraints msg currentYear).notAsOldAsTitle = none →
      env.searchMovies st = .ok (seed :: rest) →
      env.getMovieDetails seed.id = .ok details →
      env.getSemanticMovieRecommendations details
        ⟨extractExcludedGenres msg, (extractYearConstraints msg currentYear).minYear,
         (extractYearConstraints msg currentYear).maxYear⟩ = .error e →
      buildRecommendationResponse env currentYear msg history userId = .error e) ∧
    (∀ (penv : PersistEnv) (userId : String) (h : UserHistory),
      penv.getUserHistory userId = .ok h →
      ∃ r, getRecommendationsFromHistory penv userId = .ok r) := by
  constructor
  · intro env cy msg hist uid st seed rest details e hseed hst hno hsearch hdet hsem
    have htr : isTruthyStr (extractSeedTitle msg) = true := by
      rw [hseed]; simp [isTruthyStr, hst]
    simp only [buildRecommendationResponse, hseed, hno, hsearch, hdet, hsem, htr,
      List.head?_cons, if_neg hst]
  · intro penv uid h hok
    exact ⟨_, by unfold getRecommendationsFromHistory; rw [hok]⟩

/-- Witness for `merge_failure_policy`: the `chatEnvCex` scenario and the
`persistEnvW` aggregation with one failing per-item fetch. -/
theorem merge_failure_policy_witness :
    buildRecommendationResponse chatEnvCex 2026 "movies like Inception" [] "user-1" =
      .error "semantic recommender unavailable" ∧
    ∃ r, getRecommendationsFromHistory persistEnvW "user-1" = .ok r :=
  ⟨merge_failure_policy.1 chatEnvCex 2026 "movies like Inception" [] "user-1"
     "Inception" inceptionSummary [] inceptionDetails "semantic recommender unavailable"
     (by decide) (by decide) (by decide) (by decide) (by decide) (by decide),
   merge_failure_policy.2 persistEnvW "user-1"
     ⟨[⟨"w1", 27205, "Inception", 10⟩, ⟨"w2", 78, "Blade Runner", 9⟩], []⟩ (by decide)⟩
